import Mathlib

/-!
Verification of the db-reader schema-introspection tool.

The repository reads a PostgreSQL catalog and renders table structures.
Database interaction is modelled shallowly: a `DB` value records what the
three fixed catalog queries would answer (the table-metadata rows, the
column rows per table, the index rows per table), and each connector
operation is a pure function of that value.  Strings are Lean `String`s;
Go's `strings.Replace(s, old, new, -1)` is modelled on character lists by
`replaceAll`.  Go's `sql.NullString` is modelled as `Option String`.
-/

namespace DbReader

/-- One column of a table, as assembled by GetTableStructure.
Mirrors the Go struct Column (the Go field Type is `colType` here,
since `Type` is reserved in Lean); `sql.NullString` fields are `Option String`. -/
structure Column where
  name : String
  colType : String
  nullable : Bool
  defaultValue : Option String
  isPrimaryKey : Bool
  foreignKey : Option String
deriving DecidableEq

/-- One index of a table, as assembled by GetTableStructure: mirrors the Go struct Index. -/
structure Index where
  name : String
  columns : List String
  unique : Bool
  primaryKey : Bool
deriving DecidableEq

/-- A table structure: mirrors the Go struct Table. -/
structure Table where
  name : String
  schema : String
  columns : List Column
  indexes : List Index
deriving DecidableEq

/-- One row of the index catalog query (`i.relname, a.attname, ix.indisunique,
ix.indisprimary`, ordered by index name then attribute number). -/
structure IndexRow where
  indexName : String
  columnName : String
  isUnique : Bool
  isPrimary : Bool
deriving DecidableEq

/-- One row of the column catalog query, named after its SQL result aliases. -/
structure ColumnRow where
  columnName : String
  dataType : String
  isNullable : Bool
  columnDefault : Option String
  isPrimaryKey : Bool
  foreignKeyRef : Option String
deriving DecidableEq

/-- One row of `information_schema.tables`: schema, name, and whether
`table_type = BASE TABLE` (false means a view). -/
structure TableMeta where
  tableSchema : String
  tableName : String
  isBaseTable : Bool
deriving DecidableEq

/-- The catalog as the three fixed queries see it: `tableMeta` is the content of
`information_schema.tables`; `columnRows s t` (resp. `indexRows s t`) is the row
set the column (resp. index) catalog query returns for table `t` of schema `s`,
already in the order imposed by its ORDER BY clause. -/
structure DB where
  tableMeta : List TableMeta
  columnRows : String → String → List ColumnRow
  indexRows : String → String → List IndexRow

/-- Lexicographic comparison of character lists by code point, the order
`ORDER BY table_name` imposes on the returned names. -/
def lexLeb : List Char → List Char → Bool
  | [], _ => true
  | _ :: _, [] => false
  | a :: as, b :: bs =>
    decide (a.toNat < b.toNat) || (a.toNat == b.toNat && lexLeb as bs)

/-- Lexicographic order on strings, as a Bool. -/
def strLeb (a b : String) : Bool := lexLeb a.data b.data

/-- Lexicographic order on strings, as a Prop. -/
def strLe (a b : String) : Prop := strLeb a b = true

instance : DecidableRel strLe := fun a b => inferInstanceAs (Decidable (strLeb a b = true))

/-- Go's `strings.Replace(s, old, new, -1)` on character lists, with explicit
fuel so the definition is structural and computes in the kernel: scan left to
right, replace every non-overlapping occurrence of `pat`, never rescanning the
replacement text.  The fuel only needs to be at least `s.length` (every step
consumes at least one character); `replaceAll` supplies exactly that, so the
fuel-exhausted arm is unreachable.  All patterns in this development are
non-empty, so the empty-pattern arm (Go would interleave `repl` between
characters) is unreachable too. -/
def replaceAllFuel (pat repl : List Char) : Nat → List Char → List Char
  | 0, s => s
  | _ + 1, [] => []
  | fuel + 1, c :: rest =>
    if pat.isPrefixOf (c :: rest) && !pat.isEmpty then
      repl ++ replaceAllFuel pat repl fuel ((c :: rest).drop pat.length)
    else
      c :: replaceAllFuel pat repl fuel rest

/-- Replace every occurrence of `pat` in `s` by `repl` (Go `strings.Replace` with n = -1). -/
def replaceAll (pat repl s : List Char) : List Char :=
  replaceAllFuel pat repl s.length s

/-- `strings.Replace(s, pat, repl, -1)` on strings. -/
def replaceStr (pat repl s : String) : String :=
  String.mk (replaceAll pat.data repl.data s.data)

/-- Does `pat` occur as a contiguous substring of `s`?  Executable companion of
substring occurrence, used to state when no substitution applies. -/
def hasInfix (pat : List Char) : List Char → Bool
  | [] => pat.isEmpty
  | c :: rest => pat.isPrefixOf (c :: rest) || hasInfix pat rest

/-- String version of `hasInfix`. -/
def hasInfixStr (pat s : String) : Bool := hasInfix pat.data s.data

/-- The result of the SQL `SELECT table_name FROM information_schema.tables
WHERE table_schema = $1 AND table_type = BASE TABLE ORDER BY table_name`:
the matching base-table names, sorted ascending by name.  The sort is the
engine's ORDER BY; the Go code appends the rows in the order received. -/
def tablesQueryRows (db : DB) (schema : String) : List String :=
  List.insertionSort strLe
    ((db.tableMeta.filter (fun r => r.tableSchema == schema && r.isBaseTable)).map
      (fun r => r.tableName))

/-- The existence probe `SELECT EXISTS (SELECT 1 FROM information_schema.tables
WHERE table_schema = $1 AND table_name = $2)` (no base-table filter). -/
def tableExists (db : DB) (schema tableName : String) : Bool :=
  db.tableMeta.any (fun r => r.tableSchema == schema && r.tableName == tableName)

/-- One step of the index-row folding loop of GetTableStructure: if an Index
with this row's name is already present, append the row's column to it,
otherwise create a new Index from the row.  The Go code keeps the aggregates in
a `map[string]*Index`; the model keeps them in a list in first-insertion order
(the map's iteration order is unspecified, and no claim depends on it). -/
def insertIndexRow (acc : List Index) (r : IndexRow) : List Index :=
  if acc.any (fun i => i.name == r.indexName) then
    acc.map (fun i =>
      if i.name == r.indexName then { i with columns := i.columns ++ [r.columnName] } else i)
  else
    acc ++ [⟨r.indexName, [r.columnName], r.isUnique, r.isPrimary⟩]

/-- The index-row folding loop of GetTableStructure over the whole row set. -/
def indexesOfRows (rows : List IndexRow) : List Index :=
  rows.foldl insertIndexRow []

/-- The column names of the rows carrying a given index name, in row order. -/
def colsOf (rows : List IndexRow) (name : String) : List String :=
  (rows.filter (fun r => r.indexName == name)).map (fun r => r.columnName)

namespace Connector

/-- formatDataType of src/postgresql/index.go: three sequential literal
substitutions, each applied to the result of the previous. -/
def formatDataType (pgType : String) : String :=
  replaceStr "double precision" "double"
    (replaceStr "character" "char"
      (replaceStr "character varying" "varchar" pgType))

/-- No substitution source of the connector formatDataType occurs in `s`
(the already-shortened inputs of the specification). -/
def alreadyShortened (s : String) : Prop :=
  hasInfixStr "character varying" s = false ∧ hasInfixStr "character" s = false ∧
    hasInfixStr "double precision" s = false

/-- Assembling one Column from one column-catalog row, as the scan loop of
GetTableStructure does (the type name goes through formatDataType). -/
def mkColumn (r : ColumnRow) : Column :=
  { name := r.columnName, colType := formatDataType r.dataType, nullable := r.isNullable,
    defaultValue := r.columnDefault, isPrimaryKey := r.isPrimaryKey,
    foreignKey := r.foreignKeyRef }

/-- PostgresConnector.GetTables.  The receiver's handle is `pc` (`none` models
`pc.db == nil`).  Besides the Go result pair, the model returns the list of
catalog queries issued and the handle field after the call (the method never
assigns it, so it is returned unchanged on every path). -/
def GetTables (pc : Option DB) (schema : String) :
    Except String (List String) × List String × Option DB :=
  match pc with
  | none => (Except.error "not connected to database", [], none)
  | some db => (Except.ok (tablesQueryRows db schema), ["tablesQuery"], some db)

/-- PostgresConnector.GetTableStructure: nil-handle check, then the existence
probe (failing with the table-not-found error if absent), then the column query
and the index query, assembled into a Table.  Same instrumented result shape as
`GetTables`. -/
def GetTableStructure (pc : Option DB) (schema tableName : String) :
    Except String Table × List String × Option DB :=
  match pc with
  | none => (Except.error "not connected to database", [], none)
  | some db =>
    if tableExists db schema tableName then
      (Except.ok
        { name := tableName, schema := schema,
          columns := (db.columnRows schema tableName).map mkColumn,
          indexes := indexesOfRows (db.indexRows schema tableName) },
       ["tableExistsQuery", "columnQuery", "indexQuery"], some db)
    else
      (Except.error ("table \x27" ++ schema ++ "." ++ tableName ++ "\x27 does not exist"),
       ["tableExistsQuery"], some db)

/-- The world of open database handles: a fresh-id counter and the ids
currently open.  `sql.Open` hands out a fresh open handle, `Close` removes one. -/
structure ConnWorld where
  nextId : Nat
  openIds : List Nat
deriving DecidableEq

/-- PostgresConnector.Connect.  `pc` is the handle field before the call (the
code overwrites it without reading it), `openOk`/`pingOk` say whether
`sql.Open` and `db.Ping()` succeed.  Returns the handle field after the call,
the new world, and the Go error.  On ping failure the code closes the handle it
just opened and clears the field before returning. -/
def Connect (pc : Option Nat) (w : ConnWorld) (openOk pingOk : Bool) :
    Option Nat × ConnWorld × Except String Unit :=
  if openOk then
    let h := w.nextId
    let w1 : ConnWorld := ⟨w.nextId + 1, w.openIds ++ [h]⟩
    if pingOk then (some h, w1, Except.ok ())
    else (none, ⟨w1.nextId, w1.openIds.filter (fun i => i != h)⟩,
      Except.error "failed to ping database")
  else (none, w, Except.error "failed to connect to database")

/-- PostgresConnector.Disconnect: close the handle if one is open (clearing the
field whether or not the close reports an error, `closeErr`), no-op otherwise. -/
def Disconnect (pc : Option Nat) (w : ConnWorld) (closeErr : Bool) :
    Option Nat × ConnWorld × Except String Unit :=
  match pc with
  | none => (none, w, Except.ok ())
  | some h =>
    (none, ⟨w.nextId, w.openIds.filter (fun i => i != h)⟩,
     if closeErr then Except.error "error closing database connection" else Except.ok ())

end Connector

namespace Cli

/-- formatDataType of the CLI package variant (src/unnamed/part_002): the three
substitutions of the connector variant plus the two timestamp substitutions,
in that order. -/
def formatDataType (pgType : String) : String :=
  replaceStr "timestamp with time zone" "timestampz"
    (replaceStr "timestamp without time zone" "timestamp"
      (replaceStr "double precision" "double"
        (replaceStr "character" "char"
          (replaceStr "character varying" "varchar" pgType))))

/-- No substitution source of the CLI formatDataType occurs in `s`. -/
def alreadyShortened (s : String) : Prop :=
  hasInfixStr "character varying" s = false ∧ hasInfixStr "character" s = false ∧
    hasInfixStr "double precision" s = false ∧
    hasInfixStr "timestamp without time zone" s = false ∧
    hasInfixStr "timestamp with time zone" s = false

/-- Assembling one Column from one column-catalog row (CLI variant formatter). -/
def mkColumn (r : ColumnRow) : Column :=
  { name := r.columnName, colType := formatDataType r.dataType, nullable := r.isNullable,
    defaultValue := r.columnDefault, isPrimaryKey := r.isPrimaryKey,
    foreignKey := r.foreignKeyRef }

/-- GetTableList of the CLI package: the base-table query, no handle check
(the caller passes the `*sql.DB` directly). -/
def GetTableList (db : DB) (schema : String) : Except String (List String) :=
  Except.ok (tablesQueryRows db schema)

/-- GetTableStructure of the CLI package: existence probe, column query, index
query; identical to the connector variant except for the error wording and the
formatter. -/
def GetTableStructure (db : DB) (schema tableName : String) : Except String Table :=
  if tableExists db schema tableName then
    Except.ok
      { name := tableName, schema := schema,
        columns := (db.columnRows schema tableName).map mkColumn,
        indexes := indexesOfRows (db.indexRows schema tableName) }
  else
    Except.error ("the table \x27" ++ schema ++ "." ++ tableName ++ "\x27 does not exist")

end Cli

/-- Go's `%t` verb: `true` or `false`. -/
def boolStr (b : Bool) : String := if b then "true" else "false"

/-- Go's `%-Ns` (and `%-Nt` after `boolStr`): left-align in a field of `N`
characters, padding with spaces, never truncating. -/
def padRight (w : Nat) (s : String) : String :=
  s ++ String.mk (List.replicate (w - s.length) ' ')

namespace Cli

/-- One column row of PrintTableStructure's output
(`"%-20s %-25s %-10t %-25s %-10t %-25s\n"`): a missing default renders as the
literal `NULL`, a missing foreign key as the empty string. -/
def printedColumnRow (col : Column) : String :=
  padRight 20 col.name ++ " " ++ padRight 25 col.colType ++ " " ++
    padRight 10 (boolStr col.nullable) ++ " " ++
    padRight 25 (col.defaultValue.getD "NULL") ++ " " ++
    padRight 10 (boolStr col.isPrimaryKey) ++ " " ++
    padRight 25 (col.foreignKey.getD "") ++ "\n"

end Cli

namespace Ui

/-- One column row of the GUI's formatTableDetails output: the format string and
the default/foreign-key fallbacks are identical to the CLI presenter's. -/
def formattedColumnRow (col : Column) : String :=
  padRight 20 col.name ++ " " ++ padRight 25 col.colType ++ " " ++
    padRight 10 (boolStr col.nullable) ++ " " ++
    padRight 25 (col.defaultValue.getD "NULL") ++ " " ++
    padRight 10 (boolStr col.isPrimaryKey) ++ " " ++
    padRight 25 (col.foreignKey.getD "") ++ "\n"

end Ui

/-- A concrete catalog used to instantiate the theorems: schema `public` holds
the base table `users` (zero visible columns, one single-column primary-key
index) and the view `vw_users`; the base table `beta` sorts before `users`. -/
def wDb : DB where
  tableMeta := [⟨"public", "users", true⟩, ⟨"public", "beta", true⟩, ⟨"public", "vw_users", false⟩]
  columnRows := fun _ _ => []
  indexRows := fun _ _ => [⟨"users_pkey", "id", true, true⟩]

/-- A concrete catalog whose `public` schema holds only a view, no base table. -/
def wDbNoTables : DB where
  tableMeta := [⟨"public", "vw_only", false⟩]
  columnRows := fun _ _ => []
  indexRows := fun _ _ => []

/-- `lexLeb` is transitive. -/
theorem lexLeb_trans : ∀ a b c, lexLeb a b = true → lexLeb b c = true → lexLeb a c = true := by
  intro a
  induction a with
  | nil => intro b c _ _; rfl
  | cons x xs ih =>
    intro b c hab hbc
    cases b with
    | nil => simp [lexLeb] at hab
    | cons y ys =>
      cases c with
      | nil => simp [lexLeb] at hbc
      | cons z zs =>
        simp only [lexLeb, Bool.or_eq_true, Bool.and_eq_true, decide_eq_true_eq,
          beq_iff_eq] at hab hbc ⊢
        rcases hab with h1 | ⟨h1, h1r⟩
        · rcases hbc with h2 | ⟨h2, _⟩
          · exact Or.inl (by omega)
          · exact Or.inl (by omega)
        · rcases hbc with h2 | ⟨h2, h2r⟩
          · exact Or.inl (by omega)
          · exact Or.inr ⟨by omega, ih ys zs h1r h2r⟩

/-- `lexLeb` is total. -/
theorem lexLeb_total : ∀ a b, lexLeb a b = true ∨ lexLeb b a = true := by
  intro a
  induction a with
  | nil => intro b; exact Or.inl rfl
  | cons x xs ih =>
    intro b
    cases b with
    | nil => exact Or.inr rfl
    | cons y ys =>
      simp only [lexLeb, Bool.or_eq_true, Bool.and_eq_true, decide_eq_true_eq, beq_iff_eq]
      rcases Nat.lt_trichotomy x.toNat y.toNat with h | h | h
      · exact Or.inl (Or.inl h)
      · rcases ih ys with hx | hx
        · exact Or.inl (Or.inr ⟨h, hx⟩)
        · exact Or.inr (Or.inr ⟨h.symm, hx⟩)
      · exact Or.inr (Or.inl h)

instance : IsTotal String strLe := ⟨fun a b => lexLeb_total a.data b.data⟩

instance : IsTrans String strLe := ⟨fun a b c => lexLeb_trans a.data b.data c.data⟩

/-- The per-entry update of the index folding loop never changes an entry name. -/
theorem name_insert_upd (r0 : IndexRow) (i : Index) :
    (if i.name == r0.indexName then { i with columns := i.columns ++ [r0.columnName] }
      else i).name = i.name := by
  split <;> rfl

/-- What one folding step does to the first entry carrying a given name: append
the row column when the row name matches (creating the entry if absent), leave
the entry alone otherwise. -/
theorem find?_insertIndexRow (acc : List Index) (r0 : IndexRow) (name : String) :
    (insertIndexRow acc r0).find? (fun i => i.name == name) =
      if r0.indexName == name then
        match acc.find? (fun i => i.name == name) with
        | some idx => some { idx with columns := idx.columns ++ [r0.columnName] }
        | none => some ⟨r0.indexName, [r0.columnName], r0.isUnique, r0.isPrimary⟩
      else acc.find? (fun i => i.name == name) := by
  unfold insertIndexRow
  by_cases hany : acc.any (fun i => i.name == r0.indexName) = true
  · rw [if_pos hany]
    rw [List.find?_map]
    have hpred : ((fun i : Index => i.name == name) ∘
        (fun i => if i.name == r0.indexName then { i with columns := i.columns ++ [r0.columnName] }
          else i)) = (fun i : Index => i.name == name) := by
      funext i
      simp only [Function.comp_apply, name_insert_upd]
    rw [hpred]
    by_cases hname : (r0.indexName == name) = true
    · rw [if_pos hname]
      cases hfind : acc.find? (fun i => i.name == name) with
      | none =>
        exfalso
        rcases List.any_eq_true.mp hany with ⟨i, hi, hpi⟩
        have hno := List.find?_eq_none.mp hfind i hi
        apply hno
        rw [beq_iff_eq] at hpi ⊢
        rw [hpi]
        exact beq_iff_eq.mp hname
      | some idx =>
        have hpidx := List.find?_some hfind
        have heq : (idx.name == r0.indexName) = true := by
          rw [beq_iff_eq] at hpidx hname ⊢
          rw [hpidx, hname]
        rw [Option.map_some', if_pos heq]
    · rw [if_neg hname]
      cases hfind : acc.find? (fun i => i.name == name) with
      | none => rfl
      | some idx =>
        have hpidx := List.find?_some hfind
        have heq : (idx.name == r0.indexName) = false := by
          rw [beq_iff_eq] at hpidx
          rw [beq_eq_false_iff_ne]
          intro hcon
          apply hname
          rw [beq_iff_eq]
          rw [← hcon, hpidx]
        rw [Option.map_some', if_neg (by simp [heq])]
  · rw [if_neg hany]
    rw [List.find?_append]
    by_cases hname : (r0.indexName == name) = true
    · have hfind : acc.find? (fun i => i.name == name) = none := by
        rw [List.find?_eq_none]
        intro i hi hpi
        apply hany
        rw [List.any_eq_true]
        refine ⟨i, hi, ?_⟩
        rw [beq_iff_eq] at hpi ⊢
        rw [hpi]
        exact (beq_iff_eq.mp hname).symm
      rw [hfind, if_pos hname]
      simp [List.find?_cons, hname]
    · rw [if_neg hname]
      have hf : (r0.indexName == name) = false := Bool.not_eq_true _ |>.mp hname
      simp [List.find?_cons, hf]

/-- Folding more rows onto an accumulator that already holds an entry for
`name` appends exactly the matching rows of those columns, in row order. -/
theorem foldl_find?_some :
    ∀ (rows : List IndexRow) (acc : List Index) (name : String) (idx : Index),
      acc.find? (fun i => i.name == name) = some idx →
      (rows.foldl insertIndexRow acc).find? (fun i => i.name == name) =
        some { idx with columns := idx.columns ++ colsOf rows name } := by
  intro rows
  induction rows with
  | nil =>
    intro acc name idx h
    simp only [List.foldl_nil, colsOf, List.filter_nil, List.map_nil, List.append_nil, h]
  | cons r0 rest ih =>
    intro acc name idx h
    rw [List.foldl_cons]
    by_cases hname : (r0.indexName == name) = true
    · have hacc : (insertIndexRow acc r0).find? (fun i => i.name == name)
          = some { idx with columns := idx.columns ++ [r0.columnName] } := by
        rw [find?_insertIndexRow, if_pos hname, h]
      rw [ih _ _ _ hacc]
      have hcols : colsOf (r0 :: rest) name = r0.columnName :: colsOf rest name := by
        simp [colsOf, List.filter_cons, hname]
      rw [hcols]
      simp
    · have hacc : (insertIndexRow acc r0).find? (fun i => i.name == name) = some idx := by
        rw [find?_insertIndexRow, if_neg hname, h]
      rw [ih _ _ _ hacc]
      have hcols : colsOf (r0 :: rest) name = colsOf rest name := by
        simp [colsOf, List.filter_cons, Bool.not_eq_true _ |>.mp hname]
      rw [hcols]

/-- Folding onto an accumulator with no entry for `name` produces, for that
name, exactly the aggregate of the matching rows: columns in row order, flags
from the first matching row; no matching row, no entry. -/
theorem foldl_find?_none :
    ∀ (rows : List IndexRow) (acc : List Index) (name : String),
      acc.find? (fun i => i.name == name) = none →
      (rows.foldl insertIndexRow acc).find? (fun i => i.name == name) =
        (rows.find? (fun r => r.indexName == name)).map
          (fun r => ⟨name, colsOf rows name, r.isUnique, r.isPrimary⟩) := by
  intro rows
  induction rows with
  | nil =>
    intro acc name h
    simpa using h
  | cons r0 rest ih =>
    intro acc name h
    rw [List.foldl_cons]
    by_cases hname : (r0.indexName == name) = true
    · have hacc : (insertIndexRow acc r0).find? (fun i => i.name == name)
          = some ⟨r0.indexName, [r0.columnName], r0.isUnique, r0.isPrimary⟩ := by
        rw [find?_insertIndexRow, if_pos hname, h]
      rw [foldl_find?_some rest _ name _ hacc]
      have hcols : colsOf (r0 :: rest) name = r0.columnName :: colsOf rest name := by
        simp [colsOf, List.filter_cons, hname]
      rw [List.find?_cons, hname, hcols]
      simp only [Option.map_some']
      have hn : r0.indexName = name := beq_iff_eq.mp hname
      simp [hn]
    · have hacc : (insertIndexRow acc r0).find? (fun i => i.name == name) = none := by
        rw [find?_insertIndexRow, if_neg hname, h]
      rw [ih _ _ hacc]
      have hcols : colsOf (r0 :: rest) name = colsOf rest name := by
        simp [colsOf, List.filter_cons, Bool.not_eq_true _ |>.mp hname]
      rw [List.find?_cons, Bool.not_eq_true _ |>.mp hname, hcols]

/-- Folding preserves distinctness of the entry names. -/
theorem names_foldl_nodup :
    ∀ (rows : List IndexRow) (acc : List Index),
      (acc.map Index.name).Nodup → ((rows.foldl insertIndexRow acc).map Index.name).Nodup := by
  intro rows
  induction rows with
  | nil => intro acc h; simpa using h
  | cons r0 rest ih =>
    intro acc h
    rw [List.foldl_cons]
    apply ih
    unfold insertIndexRow
    by_cases hany : acc.any (fun i => i.name == r0.indexName) = true
    · rw [if_pos hany]
      have hupd : ((acc.map (fun i =>
          if i.name == r0.indexName then { i with columns := i.columns ++ [r0.columnName] }
            else i)).map Index.name) = acc.map Index.name := by
        rw [List.map_map]
        apply List.map_congr_left
        intro i _
        exact name_insert_upd r0 i
      rw [hupd]
      exact h
    · rw [if_neg hany]
      rw [List.map_append]
      rw [List.nodup_append]
      refine ⟨h, by simp, ?_⟩
      intro a ha hb
      simp only [List.map_cons, List.map_nil, List.mem_cons, List.not_mem_nil, or_false] at hb
      rcases List.mem_map.mp ha with ⟨i, hi, hin⟩
      apply Bool.not_eq_true _ |>.mp at hany
      rw [List.any_eq_false] at hany
      apply hany i hi
      rw [beq_iff_eq, hin, hb]

/-- Every entry the fold produces has a non-empty column list: an entry is born
with one column and only ever grows. -/
theorem columns_foldl_ne_nil :
    ∀ (rows : List IndexRow) (acc : List Index),
      (∀ i ∈ acc, i.columns ≠ []) → ∀ i ∈ rows.foldl insertIndexRow acc, i.columns ≠ [] := by
  intro rows
  induction rows with
  | nil => intro acc h; simpa using h
  | cons r0 rest ih =>
    intro acc h
    rw [List.foldl_cons]
    apply ih
    unfold insertIndexRow
    by_cases hany : acc.any (fun i => i.name == r0.indexName) = true
    · rw [if_pos hany]
      intro i hi
      rcases List.mem_map.mp hi with ⟨j, hj, hji⟩
      rw [← hji]
      split
      · simp
      · exact h j hj
    · rw [if_neg hany]
      intro i hi
      rcases List.mem_append.mp hi with hil | hir
      · exact h i hil
      · simp only [List.mem_cons, List.not_mem_nil, or_false] at hir
        rw [hir]
        simp

/-- If the pattern does not occur in the scanned text, the replacement scan is
the identity, whatever the fuel. -/
theorem replaceAllFuel_no_occurrence (pat repl : List Char) :
    ∀ (fuel : Nat) (s : List Char), hasInfix pat s = false →
      replaceAllFuel pat repl fuel s = s := by
  intro fuel
  induction fuel with
  | zero => intro s _; rfl
  | succ n ih =>
    intro s h
    cases s with
    | nil => rfl
    | cons c rest =>
      unfold hasInfix at h
      rw [Bool.or_eq_false_iff] at h
      unfold replaceAllFuel
      rw [if_neg (by rw [h.1]; simp)]
      rw [ih rest h.2]

/-- `replaceAll` leaves a string without the pattern unchanged. -/
theorem replaceAll_no_occurrence (pat repl s : List Char) (h : hasInfix pat s = false) :
    replaceAll pat repl s = s :=
  replaceAllFuel_no_occurrence pat repl s.length s h

/-- `replaceStr` leaves a string without the pattern unchanged. -/
theorem replaceStr_no_occurrence (pat repl s : String) (h : hasInfixStr pat s = false) :
    replaceStr pat repl s = s := by
  unfold replaceStr
  rw [replaceAll_no_occurrence pat.data repl.data s.data h]

/-- C1: GetTableStructure folds index-catalog rows by index name into exactly
one Index per distinct name: output names are distinct, and for every name the
(unique) entry has the matching rows of column names appended in row order and
the Unique/PrimaryKey flags of the first row for that name; on the three
example rows this yields exactly the two stated Index entries. -/
theorem getTableStructure_index_folding :
    (∀ rows : List IndexRow,
      ((indexesOfRows rows).map Index.name).Nodup ∧
      ∀ name : String,
        (indexesOfRows rows).find? (fun i => i.name == name) =
          (rows.find? (fun r => r.indexName == name)).map
            (fun r => ⟨name, colsOf rows name, r.isUnique, r.isPrimary⟩)) ∧
    indexesOfRows [⟨"idx_a", "col1", true, false⟩, ⟨"idx_a", "col2", true, false⟩,
        ⟨"idx_b", "col3", false, true⟩] =
      [⟨"idx_a", ["col1", "col2"], true, false⟩, ⟨"idx_b", ["col3"], false, true⟩] := by
  refine ⟨fun rows => ⟨names_foldl_nodup rows [] (by simp), fun name => ?_⟩, by decide⟩
  exact foldl_find?_none rows [] name rfl

/-- C2: with an open handle, GetTableStructure fails with the table-not-found
error naming schema.tableName exactly when the pair is absent from the
table-metadata catalog; when present but the column query yields zero rows it
returns a Table with an empty column sequence, not an error. -/
theorem getTableStructure_existence_check :
    ∀ (db : DB) (schema tableName : String),
      ((Connector.GetTableStructure (some db) schema tableName).1 =
          Except.error ("table \x27" ++ schema ++ "." ++ tableName ++ "\x27 does not exist")
        ↔ tableExists db schema tableName = false) ∧
      (tableExists db schema tableName = true → db.columnRows schema tableName = [] →
        ∃ t : Table, (Connector.GetTableStructure (some db) schema tableName).1 = Except.ok t ∧
          t.columns = []) := by
  intro db schema tableName
  constructor
  · constructor
    · intro h
      by_contra hex
      rw [Bool.not_eq_false] at hex
      simp [Connector.GetTableStructure, hex] at h
    · intro h
      simp [Connector.GetTableStructure, h]
  · intro hex hcols
    refine ⟨⟨tableName, schema, [], indexesOfRows (db.indexRows schema tableName)⟩, ?_, rfl⟩
    simp [Connector.GetTableStructure, hex, hcols]

/-- C2 witness: on the concrete catalog, describing the absent table `ghost`
yields the not-found error, and describing `users` (present, zero column rows)
yields a Table with no columns. -/
theorem getTableStructure_existence_check_witness :
    (Connector.GetTableStructure (some wDb) "public" "ghost").1 =
        Except.error ("table \x27" ++ "public" ++ "." ++ "ghost" ++ "\x27 does not exist") ∧
    ∃ t : Table, (Connector.GetTableStructure (some wDb) "public" "users").1 = Except.ok t ∧
      t.columns = [] :=
  ⟨(getTableStructure_existence_check wDb "public" "ghost").1.mpr (by decide),
   (getTableStructure_existence_check wDb "public" "users").2 (by decide) rfl⟩

/-- C3: with an open handle, GetTables (and the CLI GetTableList, built on the
same query) succeeds for every schema, returns only base-table names of that
schema, sorted ascending lexicographically; a schema with no base tables gives
the empty sequence, still without error. -/
theorem getTables_base_tables_sorted :
    ∀ (db : DB) (schema : String),
      (Connector.GetTables (some db) schema).1 = Except.ok (tablesQueryRows db schema) ∧
      Cli.GetTableList db schema = Except.ok (tablesQueryRows db schema) ∧
      (∀ nm ∈ tablesQueryRows db schema,
        ∃ row ∈ db.tableMeta, row.tableSchema = schema ∧ row.isBaseTable = true ∧
          row.tableName = nm) ∧
      (tablesQueryRows db schema).Pairwise strLe ∧
      ((∀ row ∈ db.tableMeta, row.tableSchema = schema → row.isBaseTable = false) →
        tablesQueryRows db schema = []) := by
  intro db schema
  refine ⟨rfl, rfl, ?_, ?_, ?_⟩
  · intro nm hnm
    have hmem := (List.perm_insertionSort strLe _).mem_iff.mp hnm
    rcases List.mem_map.mp hmem with ⟨row, hrow, hname⟩
    rcases List.mem_filter.mp hrow with ⟨hmem2, hpred⟩
    rw [Bool.and_eq_true, beq_iff_eq] at hpred
    exact ⟨row, hmem2, hpred.1, hpred.2, hname⟩
  · exact List.sorted_insertionSort strLe _
  · intro hnone
    unfold tablesQueryRows
    have hfil : db.tableMeta.filter (fun r => r.tableSchema == schema && r.isBaseTable) = [] := by
      rw [List.filter_eq_nil_iff]
      intro r hr
      rw [Bool.and_eq_true, beq_iff_eq]
      rintro ⟨h1, h2⟩
      have hb := hnone r hr h1
      rw [hb] at h2
      exact Bool.false_ne_true h2
    rw [hfil]
    rfl

/-- C3 witness: on the concrete catalogs, `beta` in the sorted result does come
from a base-table row of schema `public`, and the schema holding only a view
lists no tables. -/
theorem getTables_base_tables_sorted_witness :
    (∃ row ∈ wDb.tableMeta, row.tableSchema = "public" ∧ row.isBaseTable = true ∧
      row.tableName = "beta") ∧
    tablesQueryRows wDbNoTables "public" = [] :=
  ⟨(getTables_base_tables_sorted wDb "public").2.2.1 "beta" (by decide),
   (getTables_base_tables_sorted wDbNoTables "public").2.2.2.2 (by decide)⟩

/-- C4 counterexample: neither formatDataType variant is idempotent on all
strings: on `characteracter`, one application yields `character` (the
replacement text `char` joins with the following `acter`), and a second
application shortens that again to `char`. -/
theorem formatDataType_not_idempotent :
    Connector.formatDataType (Connector.formatDataType "characteracter") ≠
      Connector.formatDataType "characteracter" ∧
    Cli.formatDataType (Cli.formatDataType "characteracter") ≠
      Cli.formatDataType "characteracter" := by
  constructor <;> decide

/-- C4 amended: each formatDataType variant fixes every already-shortened
input (one in which none of its substitution sources occurs), and hence is
idempotent on such inputs; full idempotence fails (see the counterexample). -/
theorem formatDataType_idempotent_on_shortened :
    (∀ s : String, Connector.alreadyShortened s →
      Connector.formatDataType s = s ∧
        Connector.formatDataType (Connector.formatDataType s) = Connector.formatDataType s) ∧
    (∀ s : String, Cli.alreadyShortened s →
      Cli.formatDataType s = s ∧
        Cli.formatDataType (Cli.formatDataType s) = Cli.formatDataType s) := by
  constructor
  · intro s hs
    obtain ⟨h1, h2, h3⟩ := hs
    have hfix : Connector.formatDataType s = s := by
      unfold Connector.formatDataType
      rw [replaceStr_no_occurrence _ _ _ h1, replaceStr_no_occurrence _ _ _ h2,
        replaceStr_no_occurrence _ _ _ h3]
    exact ⟨hfix, by rw [hfix]; exact hfix⟩
  · intro s hs
    obtain ⟨h1, h2, h3, h4, h5⟩ := hs
    have hfix : Cli.formatDataType s = s := by
      unfold Cli.formatDataType
      rw [replaceStr_no_occurrence _ _ _ h1, replaceStr_no_occurrence _ _ _ h2,
        replaceStr_no_occurrence _ _ _ h3, replaceStr_no_occurrence _ _ _ h4,
        replaceStr_no_occurrence _ _ _ h5]
    exact ⟨hfix, by rw [hfix]; exact hfix⟩

/-- C4 witness: `varchar(50)` is already shortened and both formatters fix it. -/
theorem formatDataType_idempotent_on_shortened_witness :
    Connector.formatDataType "varchar(50)" = "varchar(50)" ∧
    Cli.formatDataType "varchar(50)" = "varchar(50)" :=
  ⟨(formatDataType_idempotent_on_shortened.1 "varchar(50)"
      ⟨by decide, by decide, by decide⟩).1,
   (formatDataType_idempotent_on_shortened.2 "varchar(50)"
      ⟨by decide, by decide, by decide, by decide, by decide⟩).1⟩

/-- C5: both formatDataType variants are exactly the stated sequential
composition of literal substitutions in the stated order; in particular
`character varying(50)` becomes `varchar(50)`, whereas applying the narrower
`character` rule first would give `char varying(50)`, which is not the output. -/
theorem formatDataType_substitution_order :
    (∀ s : String, Connector.formatDataType s =
      replaceStr "double precision" "double"
        (replaceStr "character" "char" (replaceStr "character varying" "varchar" s))) ∧
    (∀ s : String, Cli.formatDataType s =
      replaceStr "timestamp with time zone" "timestampz"
        (replaceStr "timestamp without time zone" "timestamp"
          (replaceStr "double precision" "double"
            (replaceStr "character" "char" (replaceStr "character varying" "varchar" s))))) ∧
    Connector.formatDataType "character varying(50)" = "varchar(50)" ∧
    Cli.formatDataType "character varying(50)" = "varchar(50)" ∧
    replaceStr "character" "char" "character varying(50)" = "char varying(50)" ∧
    Connector.formatDataType "character varying(50)" ≠ "char varying(50)" :=
  ⟨fun _ => rfl, fun _ => rfl, by decide, by decide, by decide, by decide⟩

/-- C6 counterexample: two successful Connect calls in a row leave two handles
open: the handle obtained by the first Connect (id 0) is still open after the
second Connect returns handle 1 — Connect closed nothing. -/
theorem connect_leaks_prior_handle :
    (Connector.Connect none ⟨0, []⟩ true true).1 = some 0 ∧
    (Connector.Connect (Connector.Connect none ⟨0, []⟩ true true).1
        (Connector.Connect none ⟨0, []⟩ true true).2.1 true true).1 = some 1 ∧
    (Connector.Connect (Connector.Connect none ⟨0, []⟩ true true).1
        (Connector.Connect none ⟨0, []⟩ true true).2.1 true true).2.1.openIds = [0, 1] ∧
    ¬(Connector.Connect (Connector.Connect none ⟨0, []⟩ true true).1
        (Connector.Connect none ⟨0, []⟩ true true).2.1 true true).2.1.openIds.length ≤ 1 :=
  ⟨rfl, rfl, rfl, by decide⟩

/-- C6 amended: Connect never closes a prior handle (it overwrites the field;
the GUI front end compensates by calling Disconnect first).  What does hold:
Connect is callable repeatedly from any state — a ping failure closes the
handle opened by that very attempt and clears the field, an open failure
changes nothing, and a subsequent Connect then succeeds cleanly. -/
theorem connect_repeatable_after_failure :
    ∀ (pc : Option Nat) (w : Connector.ConnWorld),
      (∀ i ∈ w.openIds, i < w.nextId) →
      (Connector.Connect pc w true false =
        (none, ⟨w.nextId + 1, w.openIds⟩, Except.error "failed to ping database")) ∧
      (∀ pingOk : Bool, Connector.Connect pc w false pingOk =
        (none, w, Except.error "failed to connect to database")) ∧
      (Connector.Connect (Connector.Connect pc w true false).1
          (Connector.Connect pc w true false).2.1 true true =
        (some (w.nextId + 1), ⟨w.nextId + 2, w.openIds ++ [w.nextId + 1]⟩, Except.ok ())) := by
  intro pc w hinv
  have hfil : (w.openIds ++ [w.nextId]).filter (fun i => i != w.nextId) = w.openIds := by
    rw [List.filter_append]
    have hl : w.openIds.filter (fun i => i != w.nextId) = w.openIds := by
      rw [List.filter_eq_self]
      intro a ha
      have hlt := hinv a ha
      rw [bne_iff_ne]
      omega
    have hr : [w.nextId].filter (fun i => i != w.nextId) = [] := by simp
    rw [hl, hr, List.append_nil]
  have h1 : Connector.Connect pc w true false =
      (none, ⟨w.nextId + 1, w.openIds⟩, Except.error "failed to ping database") := by
    have hdef : Connector.Connect pc w true false =
        (none, ⟨w.nextId + 1, (w.openIds ++ [w.nextId]).filter (fun i => i != w.nextId)⟩,
          Except.error "failed to ping database") := rfl
    rw [hdef, hfil]
  refine ⟨h1, fun _ => rfl, ?_⟩
  rw [h1]
  rfl

/-- C6 witness: from a state holding handle 0 with an alive world, a failed
attempt then a successful Connect yields handle 2 with that attempt's handle
properly closed. -/
theorem connect_repeatable_after_failure_witness :
    Connector.Connect (Connector.Connect (some 0) ⟨1, [0]⟩ true false).1
        (Connector.Connect (some 0) ⟨1, [0]⟩ true false).2.1 true true =
      (some 2, ⟨3, [0, 2]⟩, Except.ok ()) :=
  (connect_repeatable_after_failure (some 0) ⟨1, [0]⟩ (by decide)).2.2

/-- C7: Disconnect is a successful no-op when no handle is open; with an open
handle it closes it, reports an error exactly when the close does, and clears
the field in every case, so an immediately repeated Disconnect is a successful
no-op. -/
theorem disconnect_idempotent :
    ∀ (pc : Option Nat) (w : Connector.ConnWorld) (closeErr : Bool),
      (pc = none → Connector.Disconnect pc w closeErr = (none, w, Except.ok ())) ∧
      (∀ h : Nat, pc = some h →
        (Connector.Disconnect pc w closeErr).1 = none ∧
        (Connector.Disconnect pc w closeErr).2.1.openIds =
          w.openIds.filter (fun i => i != h) ∧
        ((Connector.Disconnect pc w closeErr).2.2 = Except.ok () ↔ closeErr = false)) ∧
      (∀ e2 : Bool,
        Connector.Disconnect (Connector.Disconnect pc w closeErr).1
            (Connector.Disconnect pc w closeErr).2.1 e2 =
          ((Connector.Disconnect pc w closeErr).1, (Connector.Disconnect pc w closeErr).2.1,
            Except.ok ())) := by
  intro pc w closeErr
  refine ⟨?_, ?_, ?_⟩
  · rintro rfl
    rfl
  · rintro h rfl
    refine ⟨rfl, rfl, ?_⟩
    cases closeErr <;> simp [Connector.Disconnect]
  · intro e2
    cases pc <;> rfl

/-- C7 witness: Disconnect with no handle is a successful no-op, and with
handle 0 open and a failing close it still clears the field and closes 0. -/
theorem disconnect_idempotent_witness :
    Connector.Disconnect none ⟨1, []⟩ false = (none, ⟨1, []⟩, Except.ok ()) ∧
    ((Connector.Disconnect (some 0) ⟨1, [0]⟩ true).1 = none ∧
      (Connector.Disconnect (some 0) ⟨1, [0]⟩ true).2.1.openIds =
        [0].filter (fun i => i != 0) ∧
      ((Connector.Disconnect (some 0) ⟨1, [0]⟩ true).2.2 = Except.ok () ↔ true = false)) :=
  ⟨(disconnect_idempotent none ⟨1, []⟩ false).1 rfl,
   (disconnect_idempotent (some 0) ⟨1, [0]⟩ true).2.1 0 rfl⟩

/-- C8: with no open handle, GetTables and GetTableStructure fail with the
not-connected error, issue no catalog query, and leave the handle field
unchanged. -/
theorem operations_require_connection :
    ∀ (schema tableName : String),
      Connector.GetTables none schema =
        (Except.error "not connected to database", [], none) ∧
      Connector.GetTableStructure none schema tableName =
        (Except.error "not connected to database", [], none) :=
  fun _ _ => ⟨rfl, rfl⟩

/-- C9: every Index of a Table returned successfully by either
GetTableStructure variant has a non-empty column list. -/
theorem indexes_have_nonempty_columns :
    ∀ (db : DB) (schema tableName : String) (tbl : Table),
      ((Connector.GetTableStructure (some db) schema tableName).1 = Except.ok tbl ∨
        Cli.GetTableStructure db schema tableName = Except.ok tbl) →
      ∀ idx ∈ tbl.indexes, idx.columns ≠ [] := by
  intro db schema tableName tbl hok
  have hidx : tbl.indexes = indexesOfRows (db.indexRows schema tableName) := by
    rcases hok with h | h
    · by_cases hx : tableExists db schema tableName = true
      · simp only [Connector.GetTableStructure, hx, if_true, Except.ok.injEq] at h
        rw [← h]
      · simp [Connector.GetTableStructure, hx] at h
    · by_cases hx : tableExists db schema tableName = true
      · simp only [Cli.GetTableStructure, hx, if_true, Except.ok.injEq] at h
        rw [← h]
      · simp [Cli.GetTableStructure, hx] at h
  rw [hidx]
  exact columns_foldl_ne_nil _ [] (by simp)

/-- C9 witness: the single index of the concrete `users` table has the
non-empty column list `[id]`. -/
theorem indexes_have_nonempty_columns_witness :
    (⟨"users_pkey", ["id"], true, true⟩ : Index).columns ≠ [] :=
  indexes_have_nonempty_columns wDb "public" "users"
    ⟨"users", "public", [], [⟨"users_pkey", ["id"], true, true⟩]⟩
    (Or.inl rfl) ⟨"users_pkey", ["id"], true, true⟩ (by decide)

/-- C10: both presenters render a column with no default and a column whose
default expression is the literal string `NULL` as character-for-character
identical rows, for any values of the remaining fields. -/
theorem presenter_renders_missing_default_as_null :
    ∀ (name colType : String) (nullable isPK : Bool) (fk : Option String),
      Cli.printedColumnRow ⟨name, colType, nullable, none, isPK, fk⟩ =
        Cli.printedColumnRow ⟨name, colType, nullable, some "NULL", isPK, fk⟩ ∧
      Ui.formattedColumnRow ⟨name, colType, nullable, none, isPK, fk⟩ =
        Ui.formattedColumnRow ⟨name, colType, nullable, some "NULL", isPK, fk⟩ :=
  fun _ _ _ _ _ => ⟨rfl, rfl⟩

end DbReader
